import Mathlib

/-!
# Verification of the planting-calendar event derivation

Shallow embedding of the calendar-event generation core of the garden
planting tracker (`src/components/calendar/PlantingCalendar.tsx`,
`generateEvents`, lines 124–222), together with proofs and refutations of
the specified properties of that derivation.

Modelling conventions:
* JavaScript `Date` values are modelled at day granularity as `JsDate`:
  either the invalid date, or a valid date identified by its day number
  relative to 1970-01-01 (the runtime is assumed to operate in the UTC
  time zone, so local-time and UTC accessors coincide).
* `Date#toISOString`, which throws a `RangeError` on an invalid date, is
  modelled as an `Option`-valued function (`none` = the exception).
* The derivation itself, which can let such an exception escape in its
  first pass, is modelled in `Except Unit`.
* Machine numbers are modelled as `Int`/`Nat`; record fields that can be
  absent at runtime are modelled with `Option` or with the empty string
  (both of which are falsy in JavaScript, like `undefined`).
-/

namespace GardenCalendar

/-! ## Data model (the four input record shapes and the output event shape,
PlantingCalendar.tsx lines 10–55) -/

/-- `interface Garden` (lines 10–15). -/
structure Garden where
  id : String
  name : String
  location : String
  growZone : String
deriving Repr, DecidableEq

/-- `interface Plant` (lines 17–22).  `daysToMaturity : number` can be
absent in a runtime row; `none` models `undefined`, and JavaScript
truthiness of the field is `jsTruthy`. -/
structure Plant where
  id : String
  name : String
  plantType : String
  daysToMaturity : Option Int
deriving Repr, DecidableEq

/-- `interface PlantingSchedule` (lines 24–36).  The six window labels and
the two harvest labels are free-text "Month Day" strings; the empty string
models an absent (falsy) label. -/
structure PlantingSchedule where
  id : String
  plantId : String
  growZone : String
  sowIndoorStart : String
  sowIndoorEnd : String
  transplantStart : String
  transplantEnd : String
  sowOutdoorStart : String
  sowOutdoorEnd : String
  harvestStart : String
  harvestEnd : String
deriving Repr, DecidableEq

/-- `interface GardenPlant` (lines 38–45). -/
structure GardenPlant where
  id : String
  gardenId : String
  plantId : String
  plantedDate : String
  status : String
deriving Repr, DecidableEq

/-- `interface CalendarEvent` (lines 47–55).  `type` is one of the five
literal strings of the union type. -/
structure CalendarEvent where
  id : String
  title : String
  type : String
  date : String
  plant : String
  garden : Option String
  description : Option String
deriving Repr, DecidableEq

/-- `const MONTHS` (lines 57–60). -/
def MONTHS : List String :=
  ["January", "February", "March", "April", "May", "June",
   "July", "August", "September", "October", "November", "December"]

/-! ## Day arithmetic

Day numbers relative to 1970-01-01 in the proleptic Gregorian calendar,
computed by Hinnant's civil-from-days / days-from-civil algorithms; this
matches ECMAScript's `MakeDay` day-number arithmetic. -/

/-- Day number (days since 1970-01-01) of the civil date `y-m-d`
(`m` in 1..12). -/
def daysFromCivil (y m d : Int) : Int :=
  let y1 := if m ≤ 2 then y - 1 else y
  let era := (if 0 ≤ y1 then y1 else y1 - 399) / 400
  let yoe := y1 - era * 400
  let mp := (m + 9) % 12
  let doy := (153 * mp + 2) / 5 + d - 1
  let doe := yoe * 365 + yoe / 4 - yoe / 100 + doy
  era * 146097 + doe - 719468

/-- Civil date `(y, m, d)` of a day number. -/
def civilFromDays (z0 : Int) : Int × Int × Int :=
  let z := z0 + 719468
  let era := (if 0 ≤ z then z else z - 146096) / 146097
  let doe := z - era * 146097
  let yoe := (doe - doe / 1460 + doe / 36524 - doe / 146096) / 365
  let y := yoe + era * 400
  let doy := doe - (365 * yoe + yoe / 4 - yoe / 100)
  let mp := (5 * doy + 2) / 153
  let d := doy - (153 * mp + 2) / 5 + 1
  let m := if mp < 10 then mp + 3 else mp - 9
  (if m ≤ 2 then y + 1 else y, m, d)

/-- Gregorian leap-year test. -/
def isLeapYear (y : Int) : Bool :=
  (y % 4 == 0 && y % 100 != 0) || y % 400 == 0

/-- Number of days of month `m` of year `y`. -/
def daysInMonth (y m : Int) : Int :=
  if m == 2 then (if isLeapYear y then 29 else 28)
  else if m == 4 || m == 6 || m == 9 || m == 11 then 30
  else 31

/-- Left-pad the decimal representation of a nonnegative integer to two
digits. -/
def pad2 (n : Int) : String :=
  if 0 ≤ n && n < 10 then "0" ++ toString n else toString n

/-- Left-pad the decimal representation of a nonnegative integer to four
digits. -/
def pad4 (n : Int) : String :=
  if n < 0 then toString n
  else if n < 10 then "000" ++ toString n
  else if n < 100 then "00" ++ toString n
  else if n < 1000 then "0" ++ toString n
  else toString n

/-- The ISO-8601 timestamp string (UTC midnight) of a day number, in the
shape produced by `Date#toISOString`. -/
def isoOfEpochDay (z : Int) : String :=
  let c := civilFromDays z
  pad4 c.1 ++ "-" ++ pad2 c.2.1 ++ "-" ++ pad2 c.2.2 ++ "T00:00:00.000Z"

/-! ## JavaScript string primitives

The embedding uses explicit structurally-recursive models of the
JavaScript string primitives the source calls (`split`, `toLowerCase`,
`startsWith`, digit parsing), stated on character lists so that every
definition evaluates by kernel reduction. -/

/-- `String.prototype.split` with a single-character separator, on the
character list: `""` splits to `[""]`, and consecutive separators
produce empty fields. -/
def splitOnChar (sep : Char) : List Char → List (List Char)
  | [] => [[]]
  | c :: rest =>
    if c == sep then [] :: splitOnChar sep rest
    else
      match splitOnChar sep rest with
      | head :: tail => (c :: head) :: tail
      | [] => [[c]]

/-- `s.split(sep)` as a list of strings. -/
def jsSplit (sep : Char) (s : String) : List String :=
  (splitOnChar sep s.data).map List.asString

/-- ASCII lower-casing of one character (the fragment of
`String.prototype.toLowerCase` relevant here). -/
def lowerChar (c : Char) : Char :=
  if 'A' ≤ c && c ≤ 'Z' then Char.ofNat (c.toNat + 32) else c

/-- ASCII `String.prototype.toLowerCase`. -/
def lowerStr (s : String) : String :=
  (s.data.map lowerChar).asString

/-- Does the first list (the tested prefix) occur at the head of the
second?  (Recursion on the prefix, so that the test evaluates as soon as
enough of the subject is in constructor form.) -/
def prefixAccepts : List Char → List Char → Bool
  | [], _ => true
  | _ :: _, [] => false
  | d :: ds, c :: cs => (c == d) && prefixAccepts ds cs

/-- `s.startsWith(p)`. -/
def jsStartsWith (s p : String) : Bool :=
  prefixAccepts p.data s.data

/-- The number denoted by a list of decimal digits. -/
def natOfDigits (l : List Char) : Nat :=
  l.foldl (fun acc c => acc * 10 + (c.toNat - '0'.toNat)) 0

/-! ## JavaScript `Date` model -/

/-- A JavaScript `Date` at day granularity: either the invalid date
(`NaN` time value), or a valid UTC-midnight date given by its day
number. -/
inductive JsDate where
  | invalid : JsDate
  | valid : Int → JsDate
deriving Repr, DecidableEq

/-- `Date#toISOString`: throws (`none`) on an invalid date, otherwise the
ISO timestamp. -/
def jsToISOString : JsDate → Option String
  | .invalid => none
  | .valid z => some (isoOfEpochDay z)

/-- `d.setDate(d.getDate() + n)`: shifting a date by `n` days (day
rollover is plain addition on day numbers); an invalid date stays
invalid. -/
def jsAddDays : JsDate → Int → JsDate
  | .invalid, _ => .invalid
  | .valid z, n => .valid (z + n)

/-- Model of the JavaScript `Date`-from-string constructor, restricted to
the date-only ISO form `YYYY-MM-DD` (parsed as UTC midnight, as
ECMAScript specifies); every other string is modelled as the invalid
date. -/
def jsDateFromString (s : String) : JsDate :=
  match splitOnChar '-' s.data with
  | [ys, ms, ds] =>
    if ys.length == 4 && ms.length == 2 && ds.length == 2
        && ys.all Char.isDigit && ms.all Char.isDigit && ds.all Char.isDigit then
      let y : Int := Int.ofNat (natOfDigits ys)
      let m : Int := Int.ofNat (natOfDigits ms)
      let d : Int := Int.ofNat (natOfDigits ds)
      if 1 ≤ m && m ≤ 12 && 1 ≤ d && d ≤ daysInMonth y m then
        .valid (daysFromCivil y m d)
      else .invalid
    else .invalid
  | _ => .invalid

/-- Model of JavaScript `parseInt` with radix 10 on decimal inputs:
leading whitespace is skipped, an optional sign is read, then the longest
digit prefix; `none` models `NaN` (no digits).  The automatic hexadecimal
`0x` form of `parseInt` is not modelled. -/
def jsParseInt (s : String) : Option Int :=
  let core : List Char → Option Int := fun l =>
    let ds := l.takeWhile Char.isDigit
    if ds.isEmpty then none
    else some (Int.ofNat (natOfDigits ds))
  match s.data.dropWhile Char.isWhitespace with
  | '-' :: rest => (core rest).map (fun n => -n)
  | '+' :: rest => core rest
  | cs => core cs

/-- JavaScript truthiness of an optional number field (`undefined`, `0`
are falsy; any other number is truthy). -/
def jsTruthy : Option Int → Bool
  | none => false
  | some n => n != 0

/-! ## The event derivation (`generateEvents`, lines 124–222) -/

/-- The first whitespace-separated token of a window label:
`const [month, day] = dateStr.split(' ')` binds `month` to this. -/
def monthToken (dateStr : String) : String :=
  (jsSplit ' ' dateStr).headD ""

/-- The month lookup of `parseDate` (line 179):
`MONTHS.findIndex(m => m.toLowerCase().startsWith(month.toLowerCase()))`,
with `none` for `-1`. -/
def monthLookup (month : String) : Option Nat :=
  MONTHS.findIdx? (fun m => jsStartsWith (lowerStr m) (lowerStr month))

/-- `parseDate` (lines 177–182): split the label on spaces, look the first
token up as a month prefix, and build
`new Date(currentYear, monthIndex, parseInt(day))`.  `none` models the
`null` return for an unrecognized month; an unparseable day number gives
an invalid (but non-null) `Date`. -/
def parseDate (currentYear : Int) (dateStr : String) : Option JsDate :=
  let parts := jsSplit ' ' dateStr
  let day := parts[1]?
  match monthLookup (parts.headD "") with
  | none => none
  | some monthIndex =>
    match day.bind jsParseInt with
    | none => some .invalid
    | some d =>
      some (.valid (daysFromCivil currentYear ((monthIndex : Int) + 1) 1 + (d - 1)))

/-- The "(Start)" event pushed by `addScheduleEvent` (lines 188–196). -/
def startEvent (garden : Garden) (schedule : PlantingSchedule) (plant : Plant)
    (type title startIso : String) : CalendarEvent :=
  { id := type ++ "-" ++ schedule.id ++ "-start"
    title := title ++ " " ++ plant.name ++ " (Start)"
    type := type
    date := startIso
    plant := plant.name
    garden := some garden.name
    description := some ("Optimal time to " ++ lowerStr title ++ " " ++ plant.name
      ++ " in " ++ garden.name) }

/-- The "(End)" event pushed by `addScheduleEvent` (lines 198–206). -/
def endEvent (garden : Garden) (schedule : PlantingSchedule) (plant : Plant)
    (type title endIso : String) : CalendarEvent :=
  { id := type ++ "-" ++ schedule.id ++ "-end"
    title := title ++ " " ++ plant.name ++ " (End)"
    type := type
    date := endIso
    plant := plant.name
    garden := some garden.name
    description := some ("Last optimal time to " ++ lowerStr title ++ " " ++ plant.name
      ++ " in " ++ garden.name) }

/-- The events pushed by one call of `addScheduleEvent` (lines 172–211):
the falsy-label guard, the two `parseDate` calls, the `start && end`
truthiness test (an invalid `Date` is truthy), and the two pushes inside
`try`.  `toISOString()` is evaluated while building each pushed object, so
an invalid start date aborts (exception caught, nothing pushed) and an
invalid end date aborts after the start event was already pushed. -/
def windowEvents (currentYear : Int) (garden : Garden) (schedule : PlantingSchedule)
    (plant : Plant) (startDate endDate type title : String) : List CalendarEvent :=
  if startDate == "" || endDate == "" then []
  else
    match parseDate currentYear startDate, parseDate currentYear endDate with
    | some s, some e =>
      match jsToISOString s with
      | none => []
      | some startIso =>
        match jsToISOString e with
        | none => [startEvent garden schedule plant type title startIso]
        | some endIso =>
          [startEvent garden schedule plant type title startIso,
           endEvent garden schedule plant type title endIso]
    | _, _ => []

/-- The body of the inner `schedules.forEach` (lines 166–216): the
grow-zone test, the plant lookup (`return` when unresolved), then the
three `addScheduleEvent` calls of lines 213–215. -/
def scheduleEvents (currentYear : Int) (plants : List Plant) (garden : Garden)
    (schedule : PlantingSchedule) : List CalendarEvent :=
  if schedule.growZone == garden.growZone then
    match plants.find? (fun p => p.id == schedule.plantId) with
    | none => []
    | some plant =>
      windowEvents currentYear garden schedule plant
          schedule.sowIndoorStart schedule.sowIndoorEnd "sow-indoor" "Start Seeds Indoor"
        ++ windowEvents currentYear garden schedule plant
          schedule.sowOutdoorStart schedule.sowOutdoorEnd "sow-outdoor" "Direct Sow"
        ++ windowEvents currentYear garden schedule plant
          schedule.transplantStart schedule.transplantEnd "transplant" "Transplant"
  else []

/-- The body of the outer `gardens.forEach` (lines 164–219): the garden
filter test, then all schedules of that garden. -/
def gardenEvents (currentYear : Int) (plants : List Plant)
    (schedules : List PlantingSchedule) (selectedGarden : String)
    (garden : Garden) : List CalendarEvent :=
  if selectedGarden == "all" || selectedGarden == garden.id then
    (schedules.map (scheduleEvents currentYear plants garden)).flatten
  else []

/-- Pass B of the derivation (lines 163–219): scheduled planting events
for the current year, in garden order then schedule order. -/
def passB (currentYear : Int) (gardens : List Garden) (plants : List Plant)
    (schedules : List PlantingSchedule) (selectedGarden : String) : List CalendarEvent :=
  (gardens.map (gardenEvents currentYear plants schedules selectedGarden)).flatten

/-- The "Planted" event pushed for a garden-plant row (lines 134–142). -/
def plantedEvent (gp : GardenPlant) (garden : Garden) (plant : Plant) : CalendarEvent :=
  { id := "planted-" ++ gp.id
    title := "Planted " ++ plant.name
    type := "planted"
    date := gp.plantedDate
    plant := plant.name
    garden := some garden.name
    description := some (plant.name ++ " was planted in " ++ garden.name) }

/-- The "Harvest" event pushed for a garden-plant row (lines 150–158). -/
def harvestEvent (gp : GardenPlant) (garden : Garden) (plant : Plant)
    (harvestIso : String) : CalendarEvent :=
  { id := "harvest-" ++ gp.id
    title := "Harvest " ++ plant.name
    type := "harvest"
    date := harvestIso
    plant := plant.name
    garden := some garden.name
    description := some ("Expected harvest date for " ++ plant.name
      ++ " in " ++ garden.name) }

/-- The body of `gardenPlants.forEach` (lines 129–161): resolve the
garden and plant, test the filter, push the planted event, and — when
`daysToMaturity` is truthy — compute the harvest date from
`new Date(plantedDate)` shifted by `daysToMaturity` days and push the
harvest event.  `harvestDate.toISOString()` (line 154) is **not** inside
any `try`, so an invalid planted date makes the whole derivation throw:
modelled by `Except.error ()`. -/
def passARow (gardens : List Garden) (plants : List Plant) (selectedGarden : String)
    (gp : GardenPlant) : Except Unit (List CalendarEvent) :=
  match gardens.find? (fun g => g.id == gp.gardenId),
        plants.find? (fun p => p.id == gp.plantId) with
  | some garden, some plant =>
    if selectedGarden == "all" || selectedGarden == garden.id then
      if jsTruthy plant.daysToMaturity then
        match jsToISOString (jsAddDays (jsDateFromString gp.plantedDate)
            (plant.daysToMaturity.getD 0)) with
        | none => .error ()
        | some iso =>
          .ok [plantedEvent gp garden plant, harvestEvent gp garden plant iso]
      else .ok [plantedEvent gp garden plant]
    else .ok []
  | _, _ => .ok []

/-- Pass A of the derivation (lines 128–161): the planted/harvest events
of every garden-plant row, in row order; the first row whose harvest-date
conversion throws aborts the whole derivation. -/
def passA (gardens : List Garden) (plants : List Plant) (selectedGarden : String) :
    List GardenPlant → Except Unit (List CalendarEvent)
  | [] => .ok []
  | gp :: rows =>
    match passARow gardens plants selectedGarden gp with
    | .error e => .error e
    | .ok evs => (passA gardens plants selectedGarden rows).map (evs ++ ·)

/-- `generateEvents` (lines 124–222): pass A followed by pass B on one
shared event array; an exception escaping pass A reaches the caller
(`Except.error`). -/
def generateEvents (gardens : List Garden) (plants : List Plant)
    (schedules : List PlantingSchedule) (gardenPlants : List GardenPlant)
    (selectedGarden : String) (currentYear : Int) :
    Except Unit (List CalendarEvent) :=
  (passA gardens plants selectedGarden gardenPlants).map
    (· ++ passB currentYear gardens plants schedules selectedGarden)

/-! ### Sanity checks of the model on concrete values -/

example : daysFromCivil 1970 1 1 = 0 := by decide
example : daysFromCivil 2024 3 1 + 60 = daysFromCivil 2024 4 30 := by decide
example : isoOfEpochDay (daysFromCivil 2025 3 15) = "2025-03-15T00:00:00.000Z" := by decide
example : jsDateFromString "2024-03-01" = .valid (daysFromCivil 2024 3 1) := by decide
example : jsDateFromString "not-a-date" = .invalid := by decide
example : jsParseInt "15" = some 15 := by decide
example : jsParseInt "x" = none := by decide
example : parseDate 2025 "Mar 15" = some (.valid (daysFromCivil 2025 3 15)) := by decide
example : parseDate 2025 "Smarch 5" = none := by decide
example : parseDate 2025 "M 5" = some (.valid (daysFromCivil 2025 3 5)) := by decide
example : parseDate 2025 "Ju 1" = some (.valid (daysFromCivil 2025 6 1)) := by decide
example : parseDate 2025 "Mar x" = some .invalid := by decide

/-! ## Concrete fixtures used by witnesses and counterexamples -/

/-- A garden in grow zone 6. -/
def gardenA : Garden :=
  { id := "g1", name := "North Bed", location := "yard", growZone := "6" }

/-- A second garden, distinct id, same grow zone and same display name. -/
def gardenB : Garden :=
  { id := "g2", name := "North Bed", location := "yard", growZone := "6" }

/-- A plant with a given `daysToMaturity`. -/
def tomato (dtm : Option Int) : Plant :=
  { id := "p1", name := "Tomato", plantType := "vegetable", daysToMaturity := dtm }

/-- A zone-6 schedule for that plant with a valid sow-indoor window and
given transplant labels. -/
def sched (tps tpe : String) : PlantingSchedule :=
  { id := "s1", plantId := "p1", growZone := "6"
    sowIndoorStart := "Mar 15", sowIndoorEnd := "Apr 1"
    transplantStart := tps, transplantEnd := tpe
    sowOutdoorStart := "", sowOutdoorEnd := ""
    harvestStart := "Jul 1", harvestEnd := "Aug 15" }

/-- A garden-plant row in `gardenA` for that plant, with a given planted
date. -/
def rowA (pd : String) : GardenPlant :=
  { id := "gp1", gardenId := "g1", plantId := "p1", plantedDate := pd,
    status := "growing" }

/-! ## Pass A: totality analysis (claim C1)

The only uncaught failure path of the derivation is line 154:
`harvestDate.toISOString()` on a row whose planted date did not parse.
`rowThrows` characterizes those rows. -/

/-- The rows on which the `gardenPlants.forEach` body throws: garden and
plant both resolve, the filter passes, `daysToMaturity` is truthy, and the
planted date is an invalid `Date`. -/
def rowThrows (gardens : List Garden) (plants : List Plant) (selectedGarden : String)
    (gp : GardenPlant) : Bool :=
  match gardens.find? (fun g => g.id == gp.gardenId),
        plants.find? (fun p => p.id == gp.plantId) with
  | some garden, some plant =>
    (selectedGarden == "all" || selectedGarden == garden.id)
      && jsTruthy plant.daysToMaturity
      && jsDateFromString gp.plantedDate == JsDate.invalid
  | _, _ => false

theorem passARow_error_iff (gardens : List Garden) (plants : List Plant)
    (selectedGarden : String) (gp : GardenPlant) :
    passARow gardens plants selectedGarden gp = .error () ↔
      rowThrows gardens plants selectedGarden gp = true := by
  unfold passARow rowThrows
  cases hg : gardens.find? (fun g => g.id == gp.gardenId) with
  | none => simp
  | some garden =>
    cases hp : plants.find? (fun p => p.id == gp.plantId) with
    | none => simp
    | some plant =>
      cases hf : (selectedGarden == "all" || selectedGarden == garden.id) with
      | false => simp [hf]
      | true =>
        cases ht : jsTruthy plant.daysToMaturity with
        | false => simp [ht]; split <;> simp
        | true =>
          cases hd : jsDateFromString gp.plantedDate with
          | invalid => simp [hd, jsAddDays, jsToISOString, ht]; tauto
          | valid z => simp [hd, jsAddDays, jsToISOString, ht]; split <;> simp

theorem passARow_ok_or_error (gardens : List Garden) (plants : List Plant)
    (selectedGarden : String) (gp : GardenPlant) :
    (∃ l, passARow gardens plants selectedGarden gp = .ok l) ∨
      passARow gardens plants selectedGarden gp = .error () := by
  cases h : passARow gardens plants selectedGarden gp with
  | error e => exact Or.inr (by cases e; rfl)
  | ok l => exact Or.inl ⟨l, rfl⟩

/-- Pass A returns normally exactly when no row throws. -/
theorem passA_ok_iff (gardens : List Garden) (plants : List Plant)
    (selectedGarden : String) (rows : List GardenPlant) :
    (∃ l, passA gardens plants selectedGarden rows = .ok l) ↔
      ∀ gp ∈ rows, rowThrows gardens plants selectedGarden gp = false := by
  induction rows with
  | nil => simp [passA]
  | cons gp rows ih =>
    constructor
    · rintro ⟨l, hl⟩ gp' hgp'
      unfold passA at hl
      cases hrow : passARow gardens plants selectedGarden gp with
      | error e => rw [hrow] at hl; exact absurd hl (by simp)
      | ok evs =>
        rw [hrow] at hl
        rcases List.mem_cons.mp hgp' with h | h
        · subst h
          cases htr : rowThrows gardens plants selectedGarden gp' with
          | false => rfl
          | true =>
            have := (passARow_error_iff gardens plants selectedGarden gp').mpr htr
            rw [this] at hrow; cases hrow
        · cases hrest : passA gardens plants selectedGarden rows with
          | error e => rw [hrest] at hl; exact absurd hl (by simp [Except.map])
          | ok l' => exact (ih.mp ⟨l', hrest⟩) gp' h
    · intro h
      have hgp : rowThrows gardens plants selectedGarden gp = false :=
        h gp (List.mem_cons_self gp rows)
      have hrow : ∃ evs, passARow gardens plants selectedGarden gp = .ok evs := by
        rcases passARow_ok_or_error gardens plants selectedGarden gp with h' | h'
        · exact h'
        · rw [(passARow_error_iff gardens plants selectedGarden gp).mp h'] at hgp
          cases hgp
      obtain ⟨evs, hevs⟩ := hrow
      obtain ⟨l', hl'⟩ := ih.mpr (fun gp' hgp' => h gp' (List.mem_cons_of_mem gp hgp'))
      exact ⟨evs ++ l', by unfold passA; rw [hevs, hl']; rfl⟩

/-! ## Anatomy of the returned list -/

/-- The derivation returns `l` exactly when pass A returns normally and
`l` is its events followed by the pass B events. -/
theorem generateEvents_ok_iff {gardens : List Garden} {plants : List Plant}
    {schedules : List PlantingSchedule} {gardenPlants : List GardenPlant}
    {selectedGarden : String} {currentYear : Int} {l : List CalendarEvent} :
    generateEvents gardens plants schedules gardenPlants selectedGarden currentYear
        = .ok l ↔
      ∃ la, passA gardens plants selectedGarden gardenPlants = .ok la ∧
        l = la ++ passB currentYear gardens plants schedules selectedGarden := by
  unfold generateEvents
  cases h : passA gardens plants selectedGarden gardenPlants <;>
    simp [Except.map, h, eq_comm]

/-- Membership in a normally-returned pass A list comes row by row. -/
theorem mem_passA {gardens : List Garden} {plants : List Plant}
    {selectedGarden : String} {rows : List GardenPlant} {l : List CalendarEvent}
    (h : passA gardens plants selectedGarden rows = .ok l) (e : CalendarEvent) :
    e ∈ l ↔ ∃ gp ∈ rows, ∃ lr,
      passARow gardens plants selectedGarden gp = .ok lr ∧ e ∈ lr := by
  induction rows generalizing l with
  | nil =>
    unfold passA at h
    cases h
    simp
  | cons gp rows ih =>
    unfold passA at h
    cases hrow : passARow gardens plants selectedGarden gp with
    | error er => rw [hrow] at h; cases h
    | ok evs =>
      rw [hrow] at h
      cases hrest : passA gardens plants selectedGarden rows with
      | error er => rw [hrest] at h; cases h
      | ok l' =>
        rw [hrest] at h
        have hl : l = evs ++ l' := by
          have := h
          simp only [Except.map] at this
          cases this
          rfl
        subst hl
        simp only [List.mem_append, List.mem_cons]
        constructor
        · rintro (he | he)
          · exact ⟨gp, Or.inl rfl, evs, hrow, he⟩
          · obtain ⟨gp', hgp', lr, hlr, helr⟩ := (ih hrest).mp he
            exact ⟨gp', Or.inr hgp', lr, hlr, helr⟩
        · rintro ⟨gp', hgp' | hgp', lr, hlr, helr⟩
          · subst hgp'
            rw [hrow] at hlr
            cases hlr
            exact Or.inl helr
          · exact Or.inr ((ih hrest).mpr ⟨gp', hgp', lr, hlr, helr⟩)

/-- The per-row events once the garden and plant resolve and the filter
passes. -/
theorem passARow_resolved {gardens : List Garden} {plants : List Plant}
    {selectedGarden : String} {gp : GardenPlant} {garden : Garden} {plant : Plant}
    (hg : gardens.find? (fun g => g.id == gp.gardenId) = some garden)
    (hp : plants.find? (fun p => p.id == gp.plantId) = some plant)
    (hf : (selectedGarden == "all" || selectedGarden == garden.id) = true) :
    passARow gardens plants selectedGarden gp =
      if jsTruthy plant.daysToMaturity then
        match jsToISOString (jsAddDays (jsDateFromString gp.plantedDate)
            (plant.daysToMaturity.getD 0)) with
        | none => .error ()
        | some iso => .ok [plantedEvent gp garden plant, harvestEvent gp garden plant iso]
      else .ok [plantedEvent gp garden plant] := by
  unfold passARow
  rw [hg, hp]
  simp only [hf]
  rfl

/-! ## Claim C1 -/

/-- **C1, counterexample.**  The event derivation does not always return:
with one garden-plant row whose garden and plant resolve, whose plant has
`daysToMaturity = 60`, and whose `plantedDate` is the unparseable string
`"not-a-date"`, the harvest-date conversion of line 154 throws on an
invalid `Date` outside every `try`, so the derivation raises instead of
returning a list. -/
theorem generateEvents_throws_on_invalid_plantedDate :
    generateEvents [gardenA] [tomato (some 60)] [] [rowA "not-a-date"] "all" 2025
      = .error () := rfl

/-- The derivation returns a list whenever no row throws. -/
theorem generateEvents_returns_of_safe (gardens : List Garden) (plants : List Plant)
    (schedules : List PlantingSchedule) (gardenPlants : List GardenPlant)
    (selectedGarden : String) (currentYear : Int)
    (h : ∀ gp ∈ gardenPlants, rowThrows gardens plants selectedGarden gp = false) :
    ∃ l, generateEvents gardens plants schedules gardenPlants selectedGarden
      currentYear = .ok l := by
  obtain ⟨la, hla⟩ := (passA_ok_iff gardens plants selectedGarden gardenPlants).mpr h
  exact ⟨la ++ passB currentYear gardens plants schedules selectedGarden,
    generateEvents_ok_iff.mpr ⟨la, hla, rfl⟩⟩

/-- **C1, amended.**  The derivation raises no exception and returns a
(possibly empty) list for every input shape in which no garden-plant row
simultaneously has a resolving garden and plant passing the filter, a
truthy `daysToMaturity`, and an unparseable `plantedDate`; the schedule
pass can never raise. -/
theorem generateEvents_total (gardens : List Garden) (plants : List Plant)
    (schedules : List PlantingSchedule) (gardenPlants : List GardenPlant)
    (selectedGarden : String) (currentYear : Int)
    (h : ∀ gp ∈ gardenPlants, rowThrows gardens plants selectedGarden gp = false) :
    ∃ l, generateEvents gardens plants schedules gardenPlants selectedGarden
      currentYear = .ok l :=
  generateEvents_returns_of_safe gardens plants schedules gardenPlants
    selectedGarden currentYear h

/-- **C1, witness** of the amended totality statement at a concrete
input. -/
theorem generateEvents_total_witness :
    ∃ l, generateEvents [gardenA] [tomato (some 60)] [sched "" ""]
      [rowA "2024-03-01"] "all" 2024 = .ok l :=
  generateEvents_total _ _ _ _ _ _ (by decide)

/-! ## Claim C5 -/

/-- **C5.**  For every garden-plant row whose garden and plant resolve
and pass the filter, whose `daysToMaturity` is the number `n` (truthy),
and whose planted date parses to day number `d`, the returned list
contains the harvest event dated exactly `n` calendar days after the
planted date. -/
theorem harvest_event_date (gardens : List Garden) (plants : List Plant)
    (schedules : List PlantingSchedule) (gardenPlants : List GardenPlant)
    (selectedGarden : String) (currentYear : Int) (gp : GardenPlant)
    (garden : Garden) (plant : Plant) (n d : Int) (l : List CalendarEvent)
    (hmem : gp ∈ gardenPlants)
    (hg : gardens.find? (fun g => g.id == gp.gardenId) = some garden)
    (hp : plants.find? (fun p => p.id == gp.plantId) = some plant)
    (hf : (selectedGarden == "all" || selectedGarden == garden.id) = true)
    (hn : plant.daysToMaturity = some n) (hn0 : n ≠ 0)
    (hd : jsDateFromString gp.plantedDate = .valid d)
    (hok : generateEvents gardens plants schedules gardenPlants selectedGarden
      currentYear = .ok l) :
    harvestEvent gp garden plant (isoOfEpochDay (d + n)) ∈ l := by
  obtain ⟨la, hla, hl⟩ := generateEvents_ok_iff.mp hok
  subst hl
  have hrow : passARow gardens plants selectedGarden gp =
      .ok [plantedEvent gp garden plant,
           harvestEvent gp garden plant (isoOfEpochDay (d + n))] := by
    rw [passARow_resolved hg hp hf, hn, hd]
    simp [jsTruthy, jsAddDays, jsToISOString, hn0]
  refine List.mem_append.mpr (Or.inl ?_)
  exact (mem_passA hla _).mpr ⟨gp, hmem,
    [plantedEvent gp garden plant, harvestEvent gp garden plant (isoOfEpochDay (d + n))],
    hrow, by simp⟩

/-- **C5, witness**: planting on 2024-03-01 with `daysToMaturity = 60`
yields a harvest event dated 2024-04-30. -/
theorem harvest_event_date_witness :
    ∃ l, generateEvents [gardenA] [tomato (some 60)] [] [rowA "2024-03-01"]
        "all" 2024 = .ok l ∧
      harvestEvent (rowA "2024-03-01") gardenA (tomato (some 60))
        "2024-04-30T00:00:00.000Z" ∈ l := by
  refine ⟨_, rfl, ?_⟩
  have h := harvest_event_date [gardenA] [tomato (some 60)] [] [rowA "2024-03-01"]
    "all" 2024 (rowA "2024-03-01") gardenA (tomato (some 60)) 60
    (daysFromCivil 2024 3 1) _ (by decide) (by decide) (by decide) (by decide)
    (by decide) (by decide) (by decide) rfl
  have hiso : isoOfEpochDay (daysFromCivil 2024 3 1 + 60)
      = "2024-04-30T00:00:00.000Z" := by decide
  rw [hiso] at h
  exact h

/-! ## Claim C6 -/

/-- **C6, counterexample.**  A resolved plant with the non-positive
`daysToMaturity = -1` (truthy in JavaScript) still yields a harvest
event, so "a harvest event is emitted iff `daysToMaturity` is positive"
fails: the code tests truthiness, not positivity. -/
theorem harvest_event_for_negative_maturity :
    ∃ l, generateEvents [gardenA] [tomato (some (-1))] [] [rowA "2024-03-01"]
        "all" 2024 = .ok l ∧
      (∃ e ∈ l, e.type = "harvest") ∧ ¬ (0 : Int) < -1 :=
  ⟨_, rfl, by decide, by decide⟩

/-- **C6, amended.**  For a garden-plant row, the per-row emission
contains a harvest event iff the row's garden and plant resolve, the
filter passes, and the resolved plant's `daysToMaturity` is present and
nonzero (JavaScript truthiness — negative values also emit); a missing
`daysToMaturity` gives the planted event alone, with no error. -/
theorem harvest_event_iff_truthy (gardens : List Garden) (plants : List Plant)
    (selectedGarden : String) (gp : GardenPlant) (l : List CalendarEvent)
    (h : passARow gardens plants selectedGarden gp = .ok l) :
    (∃ e ∈ l, e.type = "harvest") ↔
      ∃ garden plant, gardens.find? (fun g => g.id == gp.gardenId) = some garden ∧
        plants.find? (fun p => p.id == gp.plantId) = some plant ∧
        (selectedGarden == "all" || selectedGarden == garden.id) = true ∧
        jsTruthy plant.daysToMaturity = true := by
  unfold passARow at h
  cases hg : gardens.find? (fun g => g.id == gp.gardenId) with
  | none =>
    rw [hg] at h
    cases h
    simp [hg]
  | some garden =>
    rw [hg] at h
    cases hp : plants.find? (fun p => p.id == gp.plantId) with
    | none =>
      rw [hp] at h
      cases h
      simp [hp]
    | some plant =>
      rw [hp] at h
      cases hf : (selectedGarden == "all" || selectedGarden == garden.id) with
      | false =>
        simp only [hf] at h
        simp only [Bool.false_eq_true, if_false] at h
        cases h
        constructor
        · rintro ⟨e, he, _⟩
          exact absurd he (List.not_mem_nil e)
        · rintro ⟨garden', plant', hg', hp', hf', ht'⟩
          obtain rfl := (Option.some.inj hg').symm
          rw [hf] at hf'
          cases hf'
      | true =>
        simp only [hf, if_true] at h
        cases ht : jsTruthy plant.daysToMaturity with
        | false =>
          simp only [ht, Bool.false_eq_true, if_false] at h
          cases h
          constructor
          · rintro ⟨e, he, hty⟩
            rw [List.mem_singleton.mp he] at hty
            exact absurd hty (by simp [plantedEvent])
          · rintro ⟨garden', plant', hg', hp', _, ht'⟩
            obtain rfl := (Option.some.inj hg').symm
            obtain rfl := (Option.some.inj hp').symm
            rw [ht] at ht'
            cases ht'
        | true =>
          simp only [ht, if_true] at h
          cases hiso : jsToISOString (jsAddDays (jsDateFromString gp.plantedDate)
              (plant.daysToMaturity.getD 0)) with
          | none => rw [hiso] at h; cases h
          | some iso =>
            rw [hiso] at h
            cases h
            constructor
            · intro _
              exact ⟨garden, plant, rfl, rfl, hf, ht⟩
            · intro _
              exact ⟨harvestEvent gp garden plant iso, by simp, by simp [harvestEvent]⟩

/-- **C6, witness** of the amended statement: with `daysToMaturity = 60`
the row's emission contains a harvest event. -/
theorem harvest_event_iff_truthy_witness :
    ∃ e ∈ [plantedEvent (rowA "2024-03-01") gardenA (tomato (some 60)),
      harvestEvent (rowA "2024-03-01") gardenA (tomato (some 60))
        (isoOfEpochDay (daysFromCivil 2024 3 1 + 60))], e.type = "harvest" :=
  (harvest_event_iff_truthy [gardenA] [tomato (some 60)] "all" (rowA "2024-03-01")
    _ rfl).mpr
    ⟨gardenA, tomato (some 60), by decide, by decide, by decide, by decide⟩

/-! ## Claim C3 -/

/-- A zone-6 schedule whose sow-indoor end label has a recognized month
but an unparseable day number. -/
def schedBadEnd : PlantingSchedule :=
  { id := "s2", plantId := "p1", growZone := "6"
    sowIndoorStart := "Mar 15", sowIndoorEnd := "Apr x"
    transplantStart := "", transplantEnd := ""
    sowOutdoorStart := "", sowOutdoorEnd := ""
    harvestStart := "", harvestEnd := "" }

/-- A window pair whose label has an unrecognized month emits nothing:
`parseDate` returns null and the `start && end` guard fails. -/
theorem windowEvents_nil_of_month_fail (y : Int) (g : Garden) (s : PlantingSchedule)
    (p : Plant) (sd ed ty ti : String)
    (h : parseDate y sd = none ∨ parseDate y ed = none) :
    windowEvents y g s p sd ed ty ti = [] := by
  rcases h with h | h
  · cases h2 : parseDate y ed <;> simp [windowEvents, h, h2]
  · cases h1 : parseDate y sd <;> simp [windowEvents, h, h1]

/-- **C3, counterexample.**  A window pair whose end label fails to parse
can still emit one event: with `sowIndoorStart = "Mar 15"` and
`sowIndoorEnd = "Apr x"` (month recognized, day unparseable), the start
event is pushed, then the end conversion throws on the invalid `Date`
and the `catch` swallows it — one sow-indoor event (not zero) appears in
the output. -/
theorem window_pair_partial_emission :
    ∃ l, generateEvents [gardenA] [tomato none] [schedBadEnd] [] "all" 2025
        = .ok l ∧
      (l.filter (fun e => e.type == "sow-indoor")).length = 1 :=
  ⟨_, rfl, by decide⟩

/-- **C3, amended.**  A window pair either of whose labels has an
unrecognized month token (`parseDate` returns null) emits exactly zero
events, and the remaining window pairs of the schedule are processed
exactly as they would otherwise be: a schedule whose transplant labels
fail this way contributes precisely its sow-indoor and sow-outdoor window
events.  (Only when the month token is recognized but the day number is
not does a partial start-only emission occur.) -/
theorem window_pair_month_fail_isolated :
    (∀ (y : Int) (g : Garden) (s : PlantingSchedule) (p : Plant) (sd ed ty ti : String),
      (parseDate y sd = none ∨ parseDate y ed = none) →
      windowEvents y g s p sd ed ty ti = []) ∧
    (∀ (y : Int) (plants : List Plant) (garden : Garden) (s : PlantingSchedule)
      (plant : Plant),
      plants.find? (fun p => p.id == s.plantId) = some plant →
      (s.growZone == garden.growZone) = true →
      (parseDate y s.transplantStart = none ∨ parseDate y s.transplantEnd = none) →
      scheduleEvents y plants garden s =
        windowEvents y garden s plant s.sowIndoorStart s.sowIndoorEnd
            "sow-indoor" "Start Seeds Indoor"
          ++ windowEvents y garden s plant s.sowOutdoorStart s.sowOutdoorEnd
            "sow-outdoor" "Direct Sow") := by
  refine ⟨windowEvents_nil_of_month_fail, ?_⟩
  intro y plants garden s plant hp hz h
  unfold scheduleEvents
  simp only [hz, if_true, hp,
    windowEvents_nil_of_month_fail y garden s plant s.transplantStart s.transplantEnd
      "transplant" "Transplant" h, List.append_nil]

/-- **C3, witness**: a schedule with `transplantStart = "Smarch 5"`
(unrecognized month) contributes exactly its sow window events. -/
theorem window_pair_month_fail_isolated_witness :
    scheduleEvents 2025 [tomato none] gardenA (sched "Smarch 5" "Jun 1") =
      windowEvents 2025 gardenA (sched "Smarch 5" "Jun 1") (tomato none)
          "Mar 15" "Apr 1" "sow-indoor" "Start Seeds Indoor"
        ++ windowEvents 2025 gardenA (sched "Smarch 5" "Jun 1") (tomato none)
          "" "" "sow-outdoor" "Direct Sow" :=
  window_pair_month_fail_isolated.2 2025 [tomato none] gardenA
    (sched "Smarch 5" "Jun 1") (tomato none) rfl rfl (Or.inl (by decide))

/-! ## Claim C10 -/

theorem parseDate_eq_none_iff (y : Int) (s : String) :
    parseDate y s = none ↔ monthLookup (monthToken s) = none := by
  unfold parseDate
  have hmt : monthToken s = (jsSplit ' ' s).head?.getD "" := by
    rw [show monthToken s = (jsSplit ' ' s).headD "" from rfl,
      List.headD_eq_head?_getD]
  cases h : monthLookup ((jsSplit ' ' s).head?.getD "") with
  | none => simp [hmt, h]
  | some mi =>
    cases hday : (jsSplit ' ' s)[1]?.bind jsParseInt <;> simp [hmt, h, hday]

/-- **C10.**  A window label's month token is matched by case-insensitive
prefix against the twelve month names, taking the first month in calendar
order whose name starts with the token; any prefix is accepted ("M 5"
parses as March 5, "Ju 1" as June 1), and the `null` parse failure occurs
exactly when the token is a prefix of no month name. -/
theorem month_prefix_matching :
    (∀ (y : Int) (s : String), parseDate y s = none ↔
      ∀ m ∈ MONTHS, jsStartsWith (lowerStr m) (lowerStr (monthToken s)) = false) ∧
    (∀ (t : String) (i : Nat), monthLookup t = some i →
      i < MONTHS.length ∧
      jsStartsWith (lowerStr (MONTHS.getD i "")) (lowerStr t) = true ∧
      ∀ j, j < i → jsStartsWith (lowerStr (MONTHS.getD j "")) (lowerStr t) = false) ∧
    parseDate 2025 "M 5" = some (.valid (daysFromCivil 2025 3 5)) ∧
    parseDate 2025 "Ju 1" = some (.valid (daysFromCivil 2025 6 1)) := by
  refine ⟨?_, ?_, by decide, by decide⟩
  · intro y s
    rw [parseDate_eq_none_iff, monthLookup, List.findIdx?_eq_none_iff]
  · intro t i h
    rw [monthLookup] at h
    obtain ⟨hlt, hp, hprev⟩ := List.findIdx?_eq_some_iff_getElem.mp h
    refine ⟨hlt, ?_, ?_⟩
    · simpa [List.getD_eq_getElem?_getD, List.getElem?_eq_getElem hlt] using hp
    · intro j hj
      have hjlt : j < MONTHS.length := Nat.lt_trans hj hlt
      have := hprev j hj
      simpa [List.getD_eq_getElem?_getD, List.getElem?_eq_getElem hjlt,
        Bool.not_eq_true] using this

/-- **C10, witness**: the unrecognized token "Smarch" makes the parse
fail. -/
theorem month_prefix_matching_witness :
    parseDate 2025 "Smarch 5" = none :=
  (month_prefix_matching.1 2025 "Smarch 5").mpr (by decide)

/-! ## Anatomy of pass B -/

theorem mem_gardenEvents {currentYear : Int} {plants : List Plant}
    {schedules : List PlantingSchedule} {selectedGarden : String} {garden : Garden}
    {e : CalendarEvent} :
    e ∈ gardenEvents currentYear plants schedules selectedGarden garden ↔
      (selectedGarden == "all" || selectedGarden == garden.id) = true ∧
        ∃ s ∈ schedules, e ∈ scheduleEvents currentYear plants garden s := by
  unfold gardenEvents
  cases h : (selectedGarden == "all" || selectedGarden == garden.id) with
  | false => simp [h]
  | true => simp [h, List.mem_flatten]

theorem mem_passB {currentYear : Int} {gardens : List Garden} {plants : List Plant}
    {schedules : List PlantingSchedule} {selectedGarden : String} {e : CalendarEvent} :
    e ∈ passB currentYear gardens plants schedules selectedGarden ↔
      ∃ garden ∈ gardens,
        e ∈ gardenEvents currentYear plants schedules selectedGarden garden := by
  unfold passB
  simp [List.mem_flatten]

theorem mem_scheduleEvents {currentYear : Int} {plants : List Plant} {garden : Garden}
    {s : PlantingSchedule} {e : CalendarEvent} :
    e ∈ scheduleEvents currentYear plants garden s ↔
      (s.growZone == garden.growZone) = true ∧
      ∃ plant, plants.find? (fun p => p.id == s.plantId) = some plant ∧
        (e ∈ windowEvents currentYear garden s plant s.sowIndoorStart s.sowIndoorEnd
            "sow-indoor" "Start Seeds Indoor" ∨
         e ∈ windowEvents currentYear garden s plant s.sowOutdoorStart s.sowOutdoorEnd
            "sow-outdoor" "Direct Sow" ∨
         e ∈ windowEvents currentYear garden s plant s.transplantStart s.transplantEnd
            "transplant" "Transplant") := by
  unfold scheduleEvents
  cases hz : (s.growZone == garden.growZone) with
  | false => simp [hz]
  | true =>
    cases hp : plants.find? (fun p => p.id == s.plantId) with
    | none => simp [hz, hp]
    | some plant => simp [hz, hp, List.mem_append, or_assoc]

/-- Every event of a window pair is the pair's start event at a validly
parsed start date, or the pair's end event at a validly parsed end
date. -/
theorem mem_windowEvents {y : Int} {garden : Garden} {s : PlantingSchedule}
    {plant : Plant} {sd ed ty ti : String} {e : CalendarEvent}
    (h : e ∈ windowEvents y garden s plant sd ed ty ti) :
    (∃ d, parseDate y sd = some (.valid d) ∧
      e = startEvent garden s plant ty ti (isoOfEpochDay d)) ∨
    (∃ d, parseDate y ed = some (.valid d) ∧
      e = endEvent garden s plant ty ti (isoOfEpochDay d)) := by
  unfold windowEvents at h
  by_cases hg : (sd == "" || ed == "") = true
  · rw [if_pos hg] at h
    exact absurd h (List.not_mem_nil e)
  · rw [if_neg hg] at h
    cases hsd : parseDate y sd with
    | none => rw [hsd] at h; cases hed : parseDate y ed <;> rw [hed] at h <;>
        exact absurd h (List.not_mem_nil e)
    | some ds =>
      rw [hsd] at h
      cases hed : parseDate y ed with
      | none => rw [hed] at h; exact absurd h (List.not_mem_nil e)
      | some de =>
        rw [hed] at h
        cases ds with
        | invalid => simp [jsToISOString] at h
        | valid d1 =>
          simp only [jsToISOString] at h
          cases de with
          | invalid =>
            simp only [List.mem_singleton] at h
            exact Or.inl ⟨d1, rfl, h⟩
          | valid d2 =>
            rcases List.mem_pair.mp h with h | h
            · exact Or.inl ⟨d1, rfl, h⟩
            · exact Or.inr ⟨d2, rfl, h⟩

/-- The empty label always parses to the invalid date (the empty month
token is a prefix of "january"), never to a valid one. -/
theorem parseDate_empty (y : Int) : parseDate y "" = some .invalid := rfl

/-- A window pair both of whose labels parse to valid dates emits exactly
its start and end events. -/
theorem windowEvents_eq_of_valid {y : Int} {garden : Garden} {s : PlantingSchedule}
    {plant : Plant} {sd ed ty ti : String} {ds de : Int}
    (hs : parseDate y sd = some (.valid ds)) (he : parseDate y ed = some (.valid de)) :
    windowEvents y garden s plant sd ed ty ti =
      [startEvent garden s plant ty ti (isoOfEpochDay ds),
       endEvent garden s plant ty ti (isoOfEpochDay de)] := by
  have hsd : sd ≠ "" := by
    intro hx; rw [hx, parseDate_empty] at hs; cases hs
  have hed : ed ≠ "" := by
    intro hx; rw [hx, parseDate_empty] at he; cases he
  unfold windowEvents
  rw [if_neg (by simp [hsd, hed]), hs, he]
  simp [jsToISOString]

/-- Per-row anatomy of pass A: every emitted event of a row is its
planted event or its harvest event, for the resolved garden and plant. -/
theorem mem_passARow {gardens : List Garden} {plants : List Plant}
    {selectedGarden : String} {gp : GardenPlant} {lr : List CalendarEvent}
    {e : CalendarEvent}
    (h : passARow gardens plants selectedGarden gp = .ok lr) (he : e ∈ lr) :
    ∃ garden plant, gardens.find? (fun g => g.id == gp.gardenId) = some garden ∧
      plants.find? (fun p => p.id == gp.plantId) = some plant ∧
      (e = plantedEvent gp garden plant ∨
        ∃ iso, e = harvestEvent gp garden plant iso) := by
  unfold passARow at h
  cases hg : gardens.find? (fun g => g.id == gp.gardenId) with
  | none => rw [hg] at h; cases h; cases he
  | some garden =>
    rw [hg] at h
    cases hp : plants.find? (fun p => p.id == gp.plantId) with
    | none => rw [hp] at h; cases h; cases he
    | some plant =>
      rw [hp] at h
      refine ⟨garden, plant, rfl, rfl, ?_⟩
      cases hf : (selectedGarden == "all" || selectedGarden == garden.id) with
      | false => simp only [hf, Bool.false_eq_true, if_false] at h; cases h; cases he
      | true =>
        simp only [hf, if_true] at h
        cases ht : jsTruthy plant.daysToMaturity with
        | false =>
          simp only [ht, Bool.false_eq_true, if_false] at h
          cases h
          exact Or.inl (List.mem_singleton.mp he)
        | true =>
          simp only [ht, if_true] at h
          cases hiso : jsToISOString (jsAddDays (jsDateFromString gp.plantedDate)
              (plant.daysToMaturity.getD 0)) with
          | none => rw [hiso] at h; cases h
          | some iso =>
            rw [hiso] at h
            cases h
            rcases List.mem_pair.mp he with he | he
            · exact Or.inl he
            · exact Or.inr ⟨iso, he⟩

/-! ## Claim C4 -/

/-- **C4.**  For every garden passing the filter and every schedule of
the garden's grow zone whose plant resolves, a window pair both of whose
labels parse to valid dates emits exactly two events: the "(Start)" event
at the parsed start date and the "(End)" event at the parsed end date,
both carrying the window's type, with ids `{type}-{scheduleId}-start` and
`{type}-{scheduleId}-end` (those fields are part of
`startEvent`/`endEvent`); both events appear in the returned list. -/
theorem window_pair_two_events (gardens : List Garden) (plants : List Plant)
    (schedules : List PlantingSchedule) (gardenPlants : List GardenPlant)
    (selectedGarden : String) (currentYear : Int) (garden : Garden)
    (s : PlantingSchedule) (plant : Plant) (sd ed ty ti : String) (ds de : Int)
    (l : List CalendarEvent)
    (hgar : garden ∈ gardens)
    (hf : (selectedGarden == "all" || selectedGarden == garden.id) = true)
    (hsch : s ∈ schedules)
    (hz : (s.growZone == garden.growZone) = true)
    (hp : plants.find? (fun p => p.id == s.plantId) = some plant)
    (hw : (sd = s.sowIndoorStart ∧ ed = s.sowIndoorEnd ∧ ty = "sow-indoor" ∧
            ti = "Start Seeds Indoor") ∨
          (sd = s.sowOutdoorStart ∧ ed = s.sowOutdoorEnd ∧ ty = "sow-outdoor" ∧
            ti = "Direct Sow") ∨
          (sd = s.transplantStart ∧ ed = s.transplantEnd ∧ ty = "transplant" ∧
            ti = "Transplant"))
    (hds : parseDate currentYear sd = some (.valid ds))
    (hde : parseDate currentYear ed = some (.valid de))
    (hok : generateEvents gardens plants schedules gardenPlants selectedGarden
      currentYear = .ok l) :
    windowEvents currentYear garden s plant sd ed ty ti =
      [startEvent garden s plant ty ti (isoOfEpochDay ds),
       endEvent garden s plant ty ti (isoOfEpochDay de)] ∧
    startEvent garden s plant ty ti (isoOfEpochDay ds) ∈ l ∧
    endEvent garden s plant ty ti (isoOfEpochDay de) ∈ l := by
  have hwe := @windowEvents_eq_of_valid currentYear garden s plant sd ed ty ti
    ds de hds hde
  refine ⟨hwe, ?_, ?_⟩ <;> [skip; skip] <;>
  · obtain ⟨la, hla, rfl⟩ := generateEvents_ok_iff.mp hok
    refine List.mem_append.mpr (Or.inr (mem_passB.mpr ⟨garden, hgar,
      mem_gardenEvents.mpr ⟨hf, s, hsch, mem_scheduleEvents.mpr
        ⟨hz, plant, hp, ?_⟩⟩⟩))
    rcases hw with ⟨rfl, rfl, rfl, rfl⟩ | ⟨rfl, rfl, rfl, rfl⟩ | ⟨rfl, rfl, rfl, rfl⟩
    · exact Or.inl (by rw [hwe]; simp)
    · exact Or.inr (Or.inl (by rw [hwe]; simp))
    · exact Or.inr (Or.inr (by rw [hwe]; simp))

/-- **C4, witness**: `sowIndoorStart = "Mar 15"`, `sowIndoorEnd = "Apr 1"`
in reference year 2025 emit the two sow-indoor events dated 2025-03-15 and
2025-04-01. -/
theorem window_pair_two_events_witness :
    windowEvents 2025 gardenA (sched "" "") (tomato none) "Mar 15" "Apr 1"
        "sow-indoor" "Start Seeds Indoor" =
      [startEvent gardenA (sched "" "") (tomato none) "sow-indoor"
        "Start Seeds Indoor" "2025-03-15T00:00:00.000Z",
       endEvent gardenA (sched "" "") (tomato none) "sow-indoor"
        "Start Seeds Indoor" "2025-04-01T00:00:00.000Z"] ∧
    ∃ l, generateEvents [gardenA] [tomato none] [sched "" ""] [] "all" 2025
        = .ok l ∧
      startEvent gardenA (sched "" "") (tomato none) "sow-indoor"
        "Start Seeds Indoor" "2025-03-15T00:00:00.000Z" ∈ l := by
  have h := window_pair_two_events [gardenA] [tomato none] [sched "" ""] []
    "all" 2025 gardenA (sched "" "") (tomato none) "Mar 15" "Apr 1"
    "sow-indoor" "Start Seeds Indoor" (daysFromCivil 2025 3 15)
    (daysFromCivil 2025 4 1) _ (by decide) (by decide) (by decide) (by decide)
    (by decide) (Or.inl ⟨rfl, rfl, rfl, rfl⟩) (by decide) (by decide) rfl
  have h1 : isoOfEpochDay (daysFromCivil 2025 3 15) = "2025-03-15T00:00:00.000Z" := by
    decide
  have h2 : isoOfEpochDay (daysFromCivil 2025 4 1) = "2025-04-01T00:00:00.000Z" := by
    decide
  rw [h1, h2] at h
  exact ⟨h.1, _, rfl, h.2.1⟩

/-! ## Claim C7 -/

/-- **C7.**  No harvest event is ever produced by the schedule pass:
every event of type "harvest" in a returned list carries the id
`harvest-{gardenPlantId}` of some garden-plant row — schedule-level
harvest window fields are never translated into calendar events. -/
theorem harvest_events_only_from_rows (gardens : List Garden) (plants : List Plant)
    (schedules : List PlantingSchedule) (gardenPlants : List GardenPlant)
    (selectedGarden : String) (currentYear : Int) (l : List CalendarEvent)
    (hok : generateEvents gardens plants schedules gardenPlants selectedGarden
      currentYear = .ok l) :
    ∀ e ∈ l, e.type = "harvest" →
      ∃ gp ∈ gardenPlants, e.id = "harvest-" ++ gp.id := by
  obtain ⟨la, hla, rfl⟩ := generateEvents_ok_iff.mp hok
  intro e he hty
  rcases List.mem_append.mp he with he | he
  · obtain ⟨gp, hgp, lr, hlr, helr⟩ := (mem_passA hla e).mp he
    obtain ⟨garden, plant, hg, hp, hcase⟩ := mem_passARow hlr helr
    rcases hcase with rfl | ⟨iso, rfl⟩
    · exact absurd hty (by simp [plantedEvent])
    · exact ⟨gp, hgp, rfl⟩
  · obtain ⟨garden, hgar, hge⟩ := mem_passB.mp he
    obtain ⟨hf, s, hsmem, hse⟩ := mem_gardenEvents.mp hge
    obtain ⟨hz, plant, hp, hwin⟩ := mem_scheduleEvents.mp hse
    rcases hwin with hwin | hwin | hwin <;>
      rcases mem_windowEvents hwin with ⟨d, _, rfl⟩ | ⟨d, _, rfl⟩ <;>
      exact absurd hty (by simp [startEvent, endEvent])

/-- **C7, witness**: the concrete harvest event produced for a planted
row indeed carries its row's `harvest-` id. -/
theorem harvest_events_only_from_rows_witness :
    ∃ gp ∈ [rowA "2024-03-01"],
      (harvestEvent (rowA "2024-03-01") gardenA (tomato (some 60))
        (isoOfEpochDay (daysFromCivil 2024 3 1 + 60))).id = "harvest-" ++ gp.id :=
  harvest_events_only_from_rows [gardenA] [tomato (some 60)] [sched "" ""]
    [rowA "2024-03-01"] "all" 2024 _ rfl
    (harvestEvent (rowA "2024-03-01") gardenA (tomato (some 60))
      (isoOfEpochDay (daysFromCivil 2024 3 1 + 60)))
    (by decide) (by decide)

/-! ## Claim C9 -/

theorem passARow_orphan {gardens : List Garden} {plants : List Plant}
    {selectedGarden : String} {gp : GardenPlant}
    (h : plants.find? (fun p => p.id == gp.plantId) = none ∨
         gardens.find? (fun g => g.id == gp.gardenId) = none) :
    passARow gardens plants selectedGarden gp = .ok [] := by
  unfold passARow
  rcases h with h | h
  · cases hg : gardens.find? (fun g => g.id == gp.gardenId) <;> simp [hg, h]
  · cases hp : plants.find? (fun p => p.id == gp.plantId) <;> simp [h, hp]

theorem passA_cons (gardens : List Garden) (plants : List Plant)
    (selectedGarden : String) (gp : GardenPlant) (rows : List GardenPlant) :
    passA gardens plants selectedGarden (gp :: rows) =
      match passARow gardens plants selectedGarden gp with
      | Except.error e => Except.error e
      | Except.ok evs =>
        (passA gardens plants selectedGarden rows).map (evs ++ ·) := rfl

theorem passA_cons_orphan {gardens : List Garden} {plants : List Plant}
    {selectedGarden : String} {gp : GardenPlant} (l2 : List GardenPlant)
    (h : plants.find? (fun p => p.id == gp.plantId) = none ∨
         gardens.find? (fun g => g.id == gp.gardenId) = none) :
    passA gardens plants selectedGarden (gp :: l2) =
      passA gardens plants selectedGarden l2 := by
  rw [passA_cons, passARow_orphan h]
  cases passA gardens plants selectedGarden l2 with
  | error e => rfl
  | ok b => show Except.ok ([] ++ b) = _; rw [List.nil_append]

theorem passA_append (gardens : List Garden) (plants : List Plant)
    (selectedGarden : String) (l1 l2 : List GardenPlant) :
    passA gardens plants selectedGarden (l1 ++ l2) =
      match passA gardens plants selectedGarden l1 with
      | .error e => .error e
      | .ok a => (passA gardens plants selectedGarden l2).map (a ++ ·) := by
  induction l1 with
  | nil =>
    show passA gardens plants selectedGarden l2 = _
    cases passA gardens plants selectedGarden l2 with
    | error e => rfl
    | ok b => show _ = Except.ok ([] ++ b); rw [List.nil_append]
  | cons gp l1 ih =>
    rw [List.cons_append, passA_cons, passA_cons, ih]
    cases passARow gardens plants selectedGarden gp with
    | error e => rfl
    | ok evs =>
      cases passA gardens plants selectedGarden l1 with
      | error e => rfl
      | ok a =>
        cases passA gardens plants selectedGarden l2 with
        | error e => rfl
        | ok b => simp [Except.map, List.append_assoc]

theorem scheduleEvents_orphan {currentYear : Int} {plants : List Plant}
    {garden : Garden} {s : PlantingSchedule}
    (h : plants.find? (fun p => p.id == s.plantId) = none) :
    scheduleEvents currentYear plants garden s = [] := by
  unfold scheduleEvents
  cases hz : (s.growZone == garden.growZone) <;> simp [hz, h]

/-- **C9.**  A garden-plant row whose plant or garden does not resolve
contributes zero events and its removal leaves the result of the
derivation unchanged; likewise a schedule whose plant does not resolve is
skipped entirely and its removal leaves the result unchanged. -/
theorem orphan_records_no_effect :
    (∀ (gardens : List Garden) (plants : List Plant)
      (schedules : List PlantingSchedule) (l1 l2 : List GardenPlant)
      (gp : GardenPlant) (selectedGarden : String) (currentYear : Int),
      (plants.find? (fun p => p.id == gp.plantId) = none ∨
       gardens.find? (fun g => g.id == gp.gardenId) = none) →
      generateEvents gardens plants schedules (l1 ++ gp :: l2) selectedGarden
          currentYear =
        generateEvents gardens plants schedules (l1 ++ l2) selectedGarden
          currentYear) ∧
    (∀ (gardens : List Garden) (plants : List Plant)
      (s1 s2 : List PlantingSchedule) (s : PlantingSchedule)
      (gardenPlants : List GardenPlant) (selectedGarden : String)
      (currentYear : Int),
      plants.find? (fun p => p.id == s.plantId) = none →
      generateEvents gardens plants (s1 ++ s :: s2) gardenPlants selectedGarden
          currentYear =
        generateEvents gardens plants (s1 ++ s2) gardenPlants selectedGarden
          currentYear) := by
  constructor
  · intro gardens plants schedules l1 l2 gp selectedGarden currentYear h
    unfold generateEvents
    rw [passA_append, passA_cons_orphan l2 h, ← passA_append]
  · intro gardens plants s1 s2 s gardenPlants selectedGarden currentYear h
    unfold generateEvents
    have hpB : passB currentYear gardens plants (s1 ++ s :: s2) selectedGarden =
        passB currentYear gardens plants (s1 ++ s2) selectedGarden := by
      unfold passB
      congr 1
      apply List.map_congr_left
      intro garden _
      unfold gardenEvents
      cases hf : (selectedGarden == "all" || selectedGarden == garden.id) with
      | false => simp
      | true =>
        simp only [if_true]
        rw [List.map_append, List.map_cons, List.flatten_append, List.flatten_cons,
          scheduleEvents_orphan h, List.nil_append, ← List.flatten_append,
          ← List.map_append]
    rw [hpB]

/-- **C9, witness**: removing a row that references a missing plant id
leaves the concrete output unchanged. -/
theorem orphan_records_no_effect_witness :
    generateEvents [gardenA] [tomato (some 60)] [sched "" ""]
        ([rowA "2024-03-01"] ++
          { id := "gp9", gardenId := "g1", plantId := "missing",
            plantedDate := "2024-05-01", status := "growing" } :: []) "all" 2024 =
      generateEvents [gardenA] [tomato (some 60)] [sched "" ""]
        ([rowA "2024-03-01"] ++ []) "all" 2024 :=
  orphan_records_no_effect.1 [gardenA] [tomato (some 60)] [sched "" ""]
    [rowA "2024-03-01"] []
    { id := "gp9", gardenId := "g1", plantId := "missing",
      plantedDate := "2024-05-01", status := "growing" }
    "all" 2024 (Or.inl (by decide))

/-! ## Claim C2: event-id analysis

Event ids are template strings; `decodeId` recovers the emitting pass
(0 planted, 1 harvest, 2 sow-indoor, 3 sow-outdoor, 4 transplant) and the
remainder of the id after the class prefix, which lets id equalities be
analysed structurally. -/

/-- Decode an event id into its source class and the id's remainder after
the class prefix. -/
def decodeId (s : String) : Option (Nat × List Char) :=
  let cs := s.data
  if prefixAccepts "planted-".data cs then some (0, cs.drop 8)
  else if prefixAccepts "harvest-".data cs then some (1, cs.drop 8)
  else if prefixAccepts "sow-indoor-".data cs then some (2, cs.drop 11)
  else if prefixAccepts "sow-outdoor-".data cs then some (3, cs.drop 12)
  else if prefixAccepts "transplant-".data cs then some (4, cs.drop 11)
  else none

/-- The decode key of an event. -/
def keyOf (e : CalendarEvent) : Option (Nat × List Char) :=
  decodeId e.id

theorem decode_planted_id (x : String) :
    decodeId ("planted-" ++ x) = some (0, x.data) := by
  simp only [decodeId, String.data_append]; rfl

theorem decode_harvest_id (x : String) :
    decodeId ("harvest-" ++ x) = some (1, x.data) := by
  simp only [decodeId, String.data_append]; rfl

theorem decode_si_id (sid r : String) :
    decodeId ("sow-indoor-" ++ sid ++ r) = some (2, sid.data ++ r.data) := by
  simp only [decodeId, String.data_append]; rfl

theorem decode_so_id (sid r : String) :
    decodeId ("sow-outdoor-" ++ sid ++ r) = some (3, sid.data ++ r.data) := by
  simp only [decodeId, String.data_append]; rfl

theorem decode_tr_id (sid r : String) :
    decodeId ("transplant-" ++ sid ++ r) = some (4, sid.data ++ r.data) := by
  simp only [decodeId, String.data_append]; rfl

/-- A `-start` id remainder never equals an `-end` id remainder. -/
theorem start_remainder_ne_end (a b : List Char) :
    a ++ "-start".data ≠ b ++ "-end".data := by
  intro h
  have h1 := congrArg List.getLast? h
  rw [List.getLast?_append, List.getLast?_append] at h1
  have h2 : (some 't' : Option Char) = some 'd' := h1
  cases h2

/-- The exact shapes a row's emission can take. -/
theorem passARow_shape {gardens : List Garden} {plants : List Plant}
    {selectedGarden : String} {gp : GardenPlant} {lr : List CalendarEvent}
    (h : passARow gardens plants selectedGarden gp = .ok lr) :
    lr = [] ∨
    (∃ garden plant, lr = [plantedEvent gp garden plant]) ∨
    (∃ garden plant iso,
      lr = [plantedEvent gp garden plant, harvestEvent gp garden plant iso]) := by
  unfold passARow at h
  cases hg : gardens.find? (fun g => g.id == gp.gardenId) with
  | none => rw [hg] at h; cases h; exact Or.inl rfl
  | some garden =>
    rw [hg] at h
    cases hp : plants.find? (fun p => p.id == gp.plantId) with
    | none => rw [hp] at h; cases h; exact Or.inl rfl
    | some plant =>
      rw [hp] at h
      cases hf : (selectedGarden == "all" || selectedGarden == garden.id) with
      | false =>
        simp only [hf, Bool.false_eq_true, if_false] at h
        cases h; exact Or.inl rfl
      | true =>
        simp only [hf, if_true] at h
        cases ht : jsTruthy plant.daysToMaturity with
        | false =>
          simp only [ht, Bool.false_eq_true, if_false] at h
          cases h; exact Or.inr (Or.inl ⟨garden, plant, rfl⟩)
        | true =>
          simp only [ht, if_true] at h
          cases hiso : jsToISOString (jsAddDays (jsDateFromString gp.plantedDate)
              (plant.daysToMaturity.getD 0)) with
          | none => rw [hiso] at h; cases h
          | some iso =>
            rw [hiso] at h; cases h
            exact Or.inr (Or.inr ⟨garden, plant, iso, rfl⟩)

/-- Keys of a row's events. -/
theorem keyOf_passARow {gardens : List Garden} {plants : List Plant}
    {selectedGarden : String} {gp : GardenPlant} {lr : List CalendarEvent}
    {e : CalendarEvent}
    (h : passARow gardens plants selectedGarden gp = .ok lr) (he : e ∈ lr) :
    keyOf e = some (0, gp.id.data) ∨ keyOf e = some (1, gp.id.data) := by
  obtain ⟨garden, plant, _, _, hc⟩ := mem_passARow h he
  rcases hc with rfl | ⟨iso, rfl⟩
  · exact Or.inl (decode_planted_id gp.id)
  · exact Or.inr (decode_harvest_id gp.id)

/-- Keys of every pass A event. -/
theorem keyOf_passA {gardens : List Garden} {plants : List Plant}
    {selectedGarden : String} {rows : List GardenPlant} {l : List CalendarEvent}
    {e : CalendarEvent}
    (h : passA gardens plants selectedGarden rows = .ok l) (he : e ∈ l) :
    ∃ gp ∈ rows, keyOf e = some (0, gp.id.data) ∨ keyOf e = some (1, gp.id.data) := by
  obtain ⟨gp, hgp, lr, hlr, helr⟩ := (mem_passA h e).mp he
  exact ⟨gp, hgp, keyOf_passARow hlr helr⟩

/-- Keys of a schedule's events: class 2–4, remainder
`{scheduleId}-start` or `{scheduleId}-end`. -/
theorem keyOf_scheduleEvents {currentYear : Int} {plants : List Plant}
    {garden : Garden} {s : PlantingSchedule} {e : CalendarEvent}
    (he : e ∈ scheduleEvents currentYear plants garden s) :
    ∃ c, 2 ≤ c ∧ c ≤ 4 ∧
      (keyOf e = some (c, s.id.data ++ "-start".data) ∨
       keyOf e = some (c, s.id.data ++ "-end".data)) := by
  obtain ⟨hz, plant, hp, hw⟩ := mem_scheduleEvents.mp he
  rcases hw with hw | hw | hw <;>
    rcases mem_windowEvents hw with ⟨d, _, rfl⟩ | ⟨d, _, rfl⟩
  · exact ⟨2, by omega, by omega, Or.inl (decode_si_id s.id "-start")⟩
  · exact ⟨2, by omega, by omega, Or.inr (decode_si_id s.id "-end")⟩
  · exact ⟨3, by omega, by omega, Or.inl (decode_so_id s.id "-start")⟩
  · exact ⟨3, by omega, by omega, Or.inr (decode_so_id s.id "-end")⟩
  · exact ⟨4, by omega, by omega, Or.inl (decode_tr_id s.id "-start")⟩
  · exact ⟨4, by omega, by omega, Or.inr (decode_tr_id s.id "-end")⟩

/-- Keys of every pass B event. -/
theorem keyOf_passB {currentYear : Int} {gardens : List Garden} {plants : List Plant}
    {schedules : List PlantingSchedule} {selectedGarden : String} {e : CalendarEvent}
    (he : e ∈ passB currentYear gardens plants schedules selectedGarden) :
    ∃ s ∈ schedules, ∃ c, 2 ≤ c ∧ c ≤ 4 ∧
      (keyOf e = some (c, s.id.data ++ "-start".data) ∨
       keyOf e = some (c, s.id.data ++ "-end".data)) := by
  obtain ⟨garden, _, hge⟩ := mem_passB.mp he
  obtain ⟨_, s, hs, hse⟩ := mem_gardenEvents.mp hge
  exact ⟨s, hs, keyOf_scheduleEvents hse⟩

theorem end_remainder_ne_start (a b : List Char) :
    a ++ "-end".data ≠ b ++ "-start".data :=
  fun h => start_remainder_ne_end b a h.symm

/-- The exact shapes one window pair's emission can take. -/
theorem windowEvents_shape (y : Int) (g : Garden) (s : PlantingSchedule) (p : Plant)
    (sd ed ty ti : String) :
    windowEvents y g s p sd ed ty ti = [] ∨
    (∃ iso, windowEvents y g s p sd ed ty ti = [startEvent g s p ty ti iso]) ∨
    (∃ i1 i2, windowEvents y g s p sd ed ty ti =
      [startEvent g s p ty ti i1, endEvent g s p ty ti i2]) := by
  unfold windowEvents
  by_cases hg : (sd == "" || ed == "") = true
  · rw [if_pos hg]; exact Or.inl rfl
  · rw [if_neg hg]
    cases h1 : parseDate y sd with
    | none => cases h2 : parseDate y ed <;> exact Or.inl rfl
    | some a =>
      cases h2 : parseDate y ed with
      | none => exact Or.inl rfl
      | some b =>
        dsimp only
        cases ha : jsToISOString a with
        | none => exact Or.inl rfl
        | some i1 =>
          dsimp only
          cases hb : jsToISOString b with
          | none => exact Or.inr (Or.inl ⟨i1, rfl⟩)
          | some i2 => exact Or.inr (Or.inr ⟨i1, i2, rfl⟩)

/-- The keys of one schedule's events never repeat. -/
theorem scheduleEvents_keys_nodup {y : Int} {plants : List Plant} {garden : Garden}
    {s : PlantingSchedule} :
    ((scheduleEvents y plants garden s).map keyOf).Nodup := by
  unfold scheduleEvents
  cases hz : (s.growZone == garden.growZone) with
  | false => simp
  | true =>
    simp only [if_true]
    cases hp : plants.find? (fun p => p.id == s.plantId) with
    | none => simp
    | some plant =>
      dsimp only
      rcases windowEvents_shape y garden s plant s.sowIndoorStart s.sowIndoorEnd
          "sow-indoor" "Start Seeds Indoor" with h2 | ⟨i2, h2⟩ | ⟨i2, j2, h2⟩ <;>
        rcases windowEvents_shape y garden s plant s.sowOutdoorStart s.sowOutdoorEnd
          "sow-outdoor" "Direct Sow" with h3 | ⟨i3, h3⟩ | ⟨i3, j3, h3⟩ <;>
        rcases windowEvents_shape y garden s plant s.transplantStart s.transplantEnd
          "transplant" "Transplant" with h4 | ⟨i4, h4⟩ | ⟨i4, j4, h4⟩ <;>
        rw [h2, h3, h4] <;>
        simp [keyOf, startEvent, endEvent, decode_si_id, decode_so_id, decode_tr_id,
          start_remainder_ne_end, end_remainder_ne_start]

/-- The keys of one garden's schedule events never repeat when schedule
ids never repeat. -/
theorem schedules_flatten_keys_nodup {y : Int} {plants : List Plant} {garden : Garden}
    {ss : List PlantingSchedule}
    (hsid : (ss.map PlantingSchedule.id).Nodup) :
    (((ss.map (scheduleEvents y plants garden)).flatten).map keyOf).Nodup := by
  induction ss with
  | nil => simp
  | cons s ss ih =>
    rw [List.map_cons, List.flatten_cons, List.map_append, List.nodup_append]
    rw [List.map_cons, List.nodup_cons] at hsid
    refine ⟨scheduleEvents_keys_nodup, ih hsid.2, ?_⟩
    intro k hk1 hk2
    obtain ⟨e1, he1, hke1⟩ := List.mem_map.mp hk1
    obtain ⟨e2, he2, hke2⟩ := List.mem_map.mp hk2
    obtain ⟨le, hle, he2m⟩ := List.mem_flatten.mp he2
    obtain ⟨s2, hs2, rfl⟩ := List.mem_map.mp hle
    obtain ⟨c1, _, _, hkey1⟩ := keyOf_scheduleEvents he1
    obtain ⟨c2, _, _, hkey2⟩ := keyOf_scheduleEvents he2m
    have hkk : keyOf e1 = keyOf e2 := hke1.trans hke2.symm
    have hseq : s.id = s2.id := by
      rcases hkey1 with h1 | h1 <;> rcases hkey2 with h2 | h2 <;>
        rw [h1, h2] at hkk <;>
        have hp2 := congrArg Prod.snd (Option.some.inj hkk)
      · exact String.ext (List.append_cancel_right hp2)
      · exact absurd hp2 (start_remainder_ne_end s.id.data s2.id.data)
      · exact absurd hp2 (end_remainder_ne_start s.id.data s2.id.data)
      · exact String.ext (List.append_cancel_right hp2)
    exact hsid.1 (hseq ▸ List.mem_map_of_mem PlantingSchedule.id hs2)

/-- The keys of one garden's pass B events never repeat. -/
theorem gardenEvents_keys_nodup {y : Int} {plants : List Plant}
    {ss : List PlantingSchedule} {f : String} {garden : Garden}
    (hsid : (ss.map PlantingSchedule.id).Nodup) :
    ((gardenEvents y plants ss f garden).map keyOf).Nodup := by
  unfold gardenEvents
  cases hf : (f == "all" || f == garden.id) with
  | false => simp
  | true =>
    simp only [if_true]
    exact schedules_flatten_keys_nodup hsid

theorem passB_cons (y : Int) (g : Garden) (gs : List Garden) (plants : List Plant)
    (ss : List PlantingSchedule) (f : String) :
    passB y (g :: gs) plants ss f =
      gardenEvents y plants ss f g ++ passB y gs plants ss f := by
  simp [passB]

theorem passB_nil_of_no_pass {y : Int} {gardens : List Garden} {plants : List Plant}
    {ss : List PlantingSchedule} {f : String}
    (h : ∀ g ∈ gardens, (f == "all" || f == g.id) = false) :
    passB y gardens plants ss f = [] := by
  induction gardens with
  | nil => simp [passB]
  | cons g gs ih =>
    rw [passB_cons]
    have hge : gardenEvents y plants ss f g = [] := by
      unfold gardenEvents
      rw [h g (List.mem_cons_self g gs)]
      simp
    rw [hge, List.nil_append]
    exact ih (fun g' hg' => h g' (List.mem_cons_of_mem g hg'))

/-- The keys of pass B never repeat under a specific garden filter, when
garden ids and schedule ids never repeat. -/
theorem passB_keys_nodup {y : Int} {gardens : List Garden} {plants : List Plant}
    {ss : List PlantingSchedule} {f : String}
    (hgid : (gardens.map Garden.id).Nodup)
    (hsid : (ss.map PlantingSchedule.id).Nodup)
    (hfil : f ≠ "all") :
    ((passB y gardens plants ss f).map keyOf).Nodup := by
  have hfb : (f == "all") = false := by
    simp [hfil]
  induction gardens with
  | nil => simp [passB]
  | cons g gs ih =>
    rw [List.map_cons, List.nodup_cons] at hgid
    rw [passB_cons]
    cases hg : (f == g.id) with
    | false =>
      have hge : gardenEvents y plants ss f g = [] := by
        unfold gardenEvents
        rw [show (f == "all" || f == g.id) = false by rw [hfb, hg]; rfl]
        simp
      rw [hge, List.nil_append]
      exact ih hgid.2
    | true =>
      have hfg : f = g.id := by
        simpa using hg
      have hrest : passB y gs plants ss f = [] := by
        refine passB_nil_of_no_pass (fun g' hg' => ?_)
        have hne : (f == g'.id) = false := by
          simp only [beq_eq_false_iff_ne, ne_eq]
          intro hx
          apply hgid.1
          rw [← hfg, hx]
          exact List.mem_map_of_mem Garden.id hg'
        rw [hfb, hne]
        rfl
      rw [hrest, List.append_nil]
      exact gardenEvents_keys_nodup hsid

/-- The keys of pass A never repeat when row ids never repeat. -/
theorem passA_keys_nodup {gardens : List Garden} {plants : List Plant}
    {selectedGarden : String} {rows : List GardenPlant} {l : List CalendarEvent}
    (hrid : (rows.map GardenPlant.id).Nodup)
    (h : passA gardens plants selectedGarden rows = .ok l) :
    (l.map keyOf).Nodup := by
  induction rows generalizing l with
  | nil =>
    unfold passA at h
    cases h
    simp
  | cons gp rows ih =>
    rw [List.map_cons, List.nodup_cons] at hrid
    rw [passA_cons] at h
    cases hrow : passARow gardens plants selectedGarden gp with
    | error e => rw [hrow] at h; cases h
    | ok evs =>
      rw [hrow] at h
      cases hrest : passA gardens plants selectedGarden rows with
      | error e => rw [hrest] at h; cases h
      | ok l2 =>
        rw [hrest] at h
        have hl : l = evs ++ l2 := by
          have := h
          simp only [Except.map] at this
          cases this
          rfl
        subst hl
        rw [List.map_append, List.nodup_append]
        refine ⟨?_, ih hrid.2 hrest, ?_⟩
        · rcases passARow_shape hrow with rfl | ⟨garden, plant, rfl⟩ |
            ⟨garden, plant, iso, rfl⟩
          · simp
          · simp
          · have h1 : keyOf (plantedEvent gp garden plant) = some (0, gp.id.data) :=
              decode_planted_id gp.id
            have h2 : keyOf (harvestEvent gp garden plant iso) = some (1, gp.id.data) :=
              decode_harvest_id gp.id
            simp [h1, h2]
        · intro k hk1 hk2
          obtain ⟨e1, he1, hke1⟩ := List.mem_map.mp hk1
          obtain ⟨e2, he2, hke2⟩ := List.mem_map.mp hk2
          obtain ⟨gp2, hgp2, hkey2⟩ := keyOf_passA hrest he2
          have hkey1 := keyOf_passARow hrow he1
          have hkk : keyOf e1 = keyOf e2 := hke1.trans hke2.symm
          have hid : gp.id = gp2.id := by
            rcases hkey1 with h1 | h1 <;> rcases hkey2 with h2 | h2 <;>
              rw [h1, h2] at hkk <;>
              exact String.ext (congrArg Prod.snd (Option.some.inj hkk))
          exact hrid.1 (hid ▸ List.mem_map_of_mem GardenPlant.id hgp2)

/-- The decode keys of a returned list never repeat under a specific
garden filter with duplicate-free input ids. -/
theorem generateEvents_keys_nodup {gardens : List Garden} {plants : List Plant}
    {schedules : List PlantingSchedule} {gardenPlants : List GardenPlant}
    {selectedGarden : String} {currentYear : Int} {l : List CalendarEvent}
    (hgid : (gardens.map Garden.id).Nodup)
    (hsid : (schedules.map PlantingSchedule.id).Nodup)
    (hrid : (gardenPlants.map GardenPlant.id).Nodup)
    (hfil : selectedGarden ≠ "all")
    (hok : generateEvents gardens plants schedules gardenPlants selectedGarden
      currentYear = .ok l) :
    (l.map keyOf).Nodup := by
  obtain ⟨la, hla, rfl⟩ := generateEvents_ok_iff.mp hok
  rw [List.map_append, List.nodup_append]
  refine ⟨passA_keys_nodup hrid hla, passB_keys_nodup hgid hsid hfil, ?_⟩
  intro k hk1 hk2
  obtain ⟨e1, he1, hke1⟩ := List.mem_map.mp hk1
  obtain ⟨e2, he2, hke2⟩ := List.mem_map.mp hk2
  obtain ⟨gp, _, hkey1⟩ := keyOf_passA hla he1
  obtain ⟨s, _, c, hc2, hc4, hkey2⟩ := keyOf_passB he2
  have hkk : keyOf e1 = keyOf e2 := hke1.trans hke2.symm
  rcases hkey1 with h1 | h1 <;> rcases hkey2 with h2 | h2 <;> rw [h1, h2] at hkk <;>
    have := congrArg Prod.fst (Option.some.inj hkk) <;> dsimp at this <;> omega

/-- **C2, counterexample.**  Event ids are not always unique: under
filter "all", two distinct gardens in the same grow zone both receive the
events of a shared schedule with the *same* id —
`{type}-{scheduleId}-start` does not mention the garden — so the returned
list repeats ids. -/
theorem duplicate_ids_for_shared_zone :
    ∃ l, generateEvents [gardenA, gardenB] [tomato none] [sched "" ""] [] "all" 2025
        = .ok l ∧ ¬ (l.map CalendarEvent.id).Nodup :=
  ⟨_, rfl, by decide⟩

/-- **C2, amended.**  In every list returned under a specific garden
filter (not "all"), no two events share an id, provided the ids within
each input collection (gardens, schedules, gardenPlants) are themselves
duplicate-free; under filter "all", two gardens sharing a growZone
receive the shared schedule's events with identical ids, because the id
is deterministic from the source record id, type and role only and does
not include the garden. -/
theorem event_ids_nodup (gardens : List Garden) (plants : List Plant)
    (schedules : List PlantingSchedule) (gardenPlants : List GardenPlant)
    (selectedGarden : String) (currentYear : Int) (l : List CalendarEvent)
    (hgid : (gardens.map Garden.id).Nodup)
    (hsid : (schedules.map PlantingSchedule.id).Nodup)
    (hrid : (gardenPlants.map GardenPlant.id).Nodup)
    (hfil : selectedGarden ≠ "all")
    (hok : generateEvents gardens plants schedules gardenPlants selectedGarden
      currentYear = .ok l) :
    (l.map CalendarEvent.id).Nodup := by
  have hk := generateEvents_keys_nodup hgid hsid hrid hfil hok
  have hmap : l.map keyOf = (l.map CalendarEvent.id).map decodeId := by
    rw [List.map_map]
    rfl
  rw [hmap] at hk
  exact hk.of_map

/-- **C2, witness** of the amended statement at a concrete input with a
planted row, a harvest projection and a full schedule window. -/
theorem event_ids_nodup_witness :
    ∃ l, generateEvents [gardenA, gardenB] [tomato (some 60)] [sched "" ""]
        [rowA "2024-03-01"] "g1" 2024 = .ok l ∧
      (l.map CalendarEvent.id).Nodup :=
  ⟨_, rfl, event_ids_nodup [gardenA, gardenB] [tomato (some 60)] [sched "" ""]
    [rowA "2024-03-01"] "g1" 2024 _ (by decide) (by decide) (by decide)
    (by decide) rfl⟩

/-! ## Claim C8: filter algebra -/

/-- A row that throws under some filter also throws under "all". -/
theorem rowThrows_mono {gardens : List Garden} {plants : List Plant} {f : String}
    {gp : GardenPlant} (h : rowThrows gardens plants f gp = true) :
    rowThrows gardens plants "all" gp = true := by
  unfold rowThrows at h ⊢
  cases hg : gardens.find? (fun g => g.id == gp.gardenId) with
  | none => rw [hg] at h; cases h
  | some garden =>
    rw [hg] at h
    cases hp : plants.find? (fun p => p.id == gp.plantId) with
    | none => rw [hp] at h; cases h
    | some plant =>
      rw [hp] at h
      simp only [Bool.and_eq_true, Bool.or_eq_true, beq_iff_eq] at h ⊢
      exact ⟨⟨Or.inl trivial, h.1.2⟩, h.2⟩

/-- If the "all" run returns, every filtered run returns. -/
theorem generateEvents_ok_of_all {gardens : List Garden} {plants : List Plant}
    {schedules : List PlantingSchedule} {gardenPlants : List GardenPlant}
    {currentYear : Int} {lAll : List CalendarEvent} (f : String)
    (hall : generateEvents gardens plants schedules gardenPlants "all" currentYear
      = .ok lAll) :
    ∃ lf, generateEvents gardens plants schedules gardenPlants f currentYear
      = .ok lf := by
  obtain ⟨la, hla, _⟩ := generateEvents_ok_iff.mp hall
  have hsafe := (passA_ok_iff gardens plants "all" gardenPlants).mp ⟨la, hla⟩
  have hsafe3 : ∀ gp ∈ gardenPlants, rowThrows gardens plants f gp = false := by
    intro gp hgp
    cases hb : rowThrows gardens plants f gp with
    | false => rfl
    | true => exact absurd (rowThrows_mono hb) (by rw [hsafe gp hgp]; simp)
  exact generateEvents_returns_of_safe gardens plants schedules gardenPlants f
    currentYear hsafe3

/-- A resolved row emits identically under "all" and under any filter the
row's garden passes. -/
theorem passARow_pass_eq {gardens : List Garden} {plants : List Plant} {f : String}
    {gp : GardenPlant} {garden : Garden}
    (hg : gardens.find? (fun g => g.id == gp.gardenId) = some garden)
    (hf : (f == "all" || f == garden.id) = true) :
    passARow gardens plants f gp = passARow gardens plants "all" gp := by
  unfold passARow
  rw [hg]
  cases hp : plants.find? (fun p => p.id == gp.plantId) with
  | none => rfl
  | some plant =>
    simp only [hf]
    simp

/-- A resolved row emits nothing under a filter its garden fails. -/
theorem passARow_nil_of_filter_false {gardens : List Garden} {plants : List Plant}
    {f : String} {gp : GardenPlant} {garden : Garden}
    (hg : gardens.find? (fun g => g.id == gp.gardenId) = some garden)
    (hf : (f == "all" || f == garden.id) = false) :
    passARow gardens plants f gp = .ok [] := by
  unfold passARow
  rw [hg]
  cases hp : plants.find? (fun p => p.id == gp.plantId) with
  | none => rfl
  | some plant => simp [hf]

/-- A garden passing the filter contributes exactly its schedule flatten. -/
theorem gardenEvents_pos {y : Int} {plants : List Plant} {ss : List PlantingSchedule}
    {f : String} {g : Garden} (hf : (f == "all" || f == g.id) = true) :
    gardenEvents y plants ss f g = (ss.map (scheduleEvents y plants g)).flatten := by
  unfold gardenEvents
  simp [hf]

/-- Under a specific filter, every emitted event names a garden of the
collection whose id is the filter. -/
theorem event_garden_of_filter {gardens : List Garden} {plants : List Plant}
    {schedules : List PlantingSchedule} {gardenPlants : List GardenPlant}
    {f : String} {currentYear : Int} {l : List CalendarEvent} {e : CalendarEvent}
    (hfne : f ≠ "all")
    (hok : generateEvents gardens plants schedules gardenPlants f currentYear = .ok l)
    (he : e ∈ l) :
    ∃ γ ∈ gardens, γ.id = f ∧ e.garden = some γ.name := by
  have hfb : (f == "all") = false := by simp [hfne]
  obtain ⟨la, hla, rfl⟩ := generateEvents_ok_iff.mp hok
  rcases List.mem_append.mp he with he | he
  · obtain ⟨gp, hgp, lr, hlr, helr⟩ := (mem_passA hla e).mp he
    obtain ⟨garden, plant, hg, hp, hc⟩ := mem_passARow hlr helr
    have hf : (f == "all" || f == garden.id) = true := by
      cases hb : (f == "all" || f == garden.id) with
      | true => rfl
      | false =>
        rw [passARow_nil_of_filter_false hg hb] at hlr
        cases hlr
        cases helr
    have hid : garden.id = f := by
      rcases Bool.or_eq_true_iff.mp hf with h | h
      · rw [hfb] at h; cases h
      · exact (beq_iff_eq.mp h).symm
    refine ⟨garden, List.mem_of_find?_eq_some hg, hid, ?_⟩
    rcases hc with rfl | ⟨iso, rfl⟩ <;> rfl
  · obtain ⟨garden, hγ, hge⟩ := mem_passB.mp he
    obtain ⟨hf, s, hs, hse⟩ := mem_gardenEvents.mp hge
    have hid : garden.id = f := by
      rcases Bool.or_eq_true_iff.mp hf with h | h
      · rw [hfb] at h; cases h
      · exact (beq_iff_eq.mp h).symm
    obtain ⟨_, plant, _, hw⟩ := mem_scheduleEvents.mp hse
    refine ⟨garden, hγ, hid, ?_⟩
    rcases hw with hw | hw | hw <;>
      rcases mem_windowEvents hw with ⟨d, _, rfl⟩ | ⟨d, _, rfl⟩ <;> rfl

/-- **C8, counterexample.**  An event can belong to two different
gardens' filtered results: two gardens with distinct ids but the same
grow zone and the same display name receive the shared schedule's events
as *identical* records (same id, same garden name), so the same event is
in the filter-"g1" result and in the filter-"g2" result. -/
theorem shared_event_in_two_filters :
    ∃ l1 l2,
      generateEvents [gardenA, gardenB] [tomato none] [sched "" ""] [] "g1" 2025
          = .ok l1 ∧
      generateEvents [gardenA, gardenB] [tomato none] [sched "" ""] [] "g2" 2025
          = .ok l2 ∧
      ("g1" : String) ≠ "g2" ∧
      ∃ e, e ∈ l1 ∧ e ∈ l2 :=
  ⟨_, _, rfl, rfl, by decide,
    ⟨startEvent gardenA (sched "" "") (tomato none) "sow-indoor"
      "Start Seeds Indoor" "2025-03-15T00:00:00.000Z", by decide, by decide⟩⟩

/-- **C8, amended.**  When the "all" run returns, the union over the
collection's gardens of the per-garden-filter results equals the "all"
result as a set; and if garden display names are pairwise distinct, no
event record belongs to the results of two different (non-"all")
filters.  (With duplicated garden names, a shared-zone schedule emits the
identical record under both gardens' filters.) -/
theorem filter_union_and_disjointness (gardens : List Garden) (plants : List Plant)
    (schedules : List PlantingSchedule) (gardenPlants : List GardenPlant)
    (currentYear : Int) (lAll : List CalendarEvent)
    (hall : generateEvents gardens plants schedules gardenPlants "all" currentYear
      = .ok lAll) :
    (∀ e, e ∈ lAll ↔ ∃ γ ∈ gardens, ∃ lg,
      generateEvents gardens plants schedules gardenPlants γ.id currentYear
        = .ok lg ∧ e ∈ lg) ∧
    ((gardens.map Garden.name).Nodup →
      ∀ f1 f2, f1 ≠ "all" → f2 ≠ "all" → f1 ≠ f2 →
      ∀ l1 l2 e,
        generateEvents gardens plants schedules gardenPlants f1 currentYear = .ok l1 →
        generateEvents gardens plants schedules gardenPlants f2 currentYear = .ok l2 →
        e ∈ l1 → e ∈ l2 → False) := by
  constructor
  · intro e
    constructor
    · intro he
      obtain ⟨la, hla, hsplit⟩ := generateEvents_ok_iff.mp hall
      rw [hsplit] at he
      rcases List.mem_append.mp he with he | he
      · obtain ⟨gp, hgp, lr, hlr, helr⟩ := (mem_passA hla e).mp he
        obtain ⟨γ, plant, hg, hp, _⟩ := mem_passARow hlr helr
        obtain ⟨lf, hlf⟩ := generateEvents_ok_of_all γ.id hall
        refine ⟨γ, List.mem_of_find?_eq_some hg, lf, hlf, ?_⟩
        obtain ⟨laf, hlaf, rfl⟩ := generateEvents_ok_iff.mp hlf
        refine List.mem_append.mpr (Or.inl ?_)
        refine (mem_passA hlaf e).mpr ⟨gp, hgp, lr, ?_, helr⟩
        rw [passARow_pass_eq hg (by simp)]
        exact hlr
      · obtain ⟨γ, hγ, hge⟩ := mem_passB.mp he
        obtain ⟨_, s, hs, hse⟩ := mem_gardenEvents.mp hge
        obtain ⟨lf, hlf⟩ := generateEvents_ok_of_all γ.id hall
        refine ⟨γ, hγ, lf, hlf, ?_⟩
        obtain ⟨laf, hlaf, rfl⟩ := generateEvents_ok_iff.mp hlf
        exact List.mem_append.mpr (Or.inr (mem_passB.mpr
          ⟨γ, hγ, mem_gardenEvents.mpr ⟨by simp, s, hs, hse⟩⟩))
    · rintro ⟨γ, hγ, lg, hlg, helg⟩
      obtain ⟨la, hla, rfl⟩ := generateEvents_ok_iff.mp hall
      obtain ⟨laf, hlaf, rfl⟩ := generateEvents_ok_iff.mp hlg
      rcases List.mem_append.mp helg with he | he
      · obtain ⟨gp, hgp, lr, hlr, helr⟩ := (mem_passA hlaf e).mp he
        obtain ⟨γ2, plant, hg, hp, _⟩ := mem_passARow hlr helr
        refine List.mem_append.mpr (Or.inl ?_)
        have hfpass : (γ.id == "all" || γ.id == γ2.id) = true := by
          cases hb : (γ.id == "all" || γ.id == γ2.id) with
          | true => rfl
          | false =>
            rw [passARow_nil_of_filter_false hg hb] at hlr
            cases hlr
            cases helr
        refine (mem_passA hla e).mpr ⟨gp, hgp, lr, ?_, helr⟩
        rw [← passARow_pass_eq hg hfpass]
        exact hlr
      · obtain ⟨γ2, hγ2, hge⟩ := mem_passB.mp he
        obtain ⟨_, s, hs, hse⟩ := mem_gardenEvents.mp hge
        exact List.mem_append.mpr (Or.inr (mem_passB.mpr
          ⟨γ2, hγ2, mem_gardenEvents.mpr ⟨by simp, s, hs, hse⟩⟩))
  · intro hname f1 f2 h1 h2 hne l1 l2 e hok1 hok2 he1 he2
    obtain ⟨a, ha, haid, hag⟩ := event_garden_of_filter h1 hok1 he1
    obtain ⟨b, hb, hbid, hbg⟩ := event_garden_of_filter h2 hok2 he2
    have hnames : a.name = b.name := Option.some.inj (hag.symm.trans hbg)
    have hab : a = b := List.inj_on_of_nodup_map hname ha hb hnames
    apply hne
    rw [← haid, ← hbid, hab]

/-- **C8, witness** of the amended union statement: an "all"-run event is
recovered from its garden's filtered run. -/
theorem filter_union_and_disjointness_witness :
    ∃ γ ∈ [gardenA], ∃ lg,
      generateEvents [gardenA] [tomato none] [sched "" ""] [] γ.id 2025
        = .ok lg ∧
      startEvent gardenA (sched "" "") (tomato none) "sow-indoor"
        "Start Seeds Indoor" "2025-03-15T00:00:00.000Z" ∈ lg :=
  ((filter_union_and_disjointness [gardenA] [tomato none] [sched "" ""] [] 2025
    _ rfl).1 _).mp (by decide)

end GardenCalendar
